import Mathlib

/-
Verification of the revision-based synchronization engine of the
telegram-fsrs-app repository.

Embedding conventions:
* JavaScript numbers are modelled as rationals (every finite double is a
  rational); `NaN` and non-number values are modelled by the `JSVal`
  type at the two places where the source tests `typeof`/`isNaN`.
* `Date` values are modelled as integer millisecond timestamps threaded
  into the operations that stamp `new Date()` / `Date.now()`.
* `localStorage` persistence of the two revision counters is modelled by
  the `persistedLocal`/`persistedServer` mirrors inside `SyncStatus`;
  the `cards_data` item is the `cardsData` field of `World`.
* Listener notification (`notifyListeners`) is modelled by a counter.
* The remote key-value backend (Telegram CloudStorage) is modelled as an
  association list from keys to values; values are either raw chunk
  strings or the structured JSON object stored under the metadata key
  (`JSON.parse` of a non-JSON chunk string is modelled as a parse
  failure, which the source catches).  All remote operations are taken
  on their success path - timeouts and backend errors are outside the
  claims treated here - while *absence* of a key is modelled faithfully.
-/

namespace TgSync

/-- JavaScript runtime values passed to the revision setters. Finite JS
numbers are modelled as rationals; `nan` models `NaN` and `other` models
any non-number value (`undefined`, strings, objects, ...). -/
inductive JSVal where
  | num (x : ℚ)
  | nan
  | other
deriving DecidableEq, Repr

/-- The validation expression
`(typeof revision === 'number' && !isNaN(revision)) ? revision : 0`
used by `setLocalRevision` and `setServerRevision`
(src/unnamed/part_000, lines 63 and 78). -/
def coerceRevision : JSVal → ℚ
  | JSVal.num x => x
  | JSVal.nan => 0
  | JSVal.other => 0

/-- The `SyncStatus` record of `SyncStatusManager` (src/unnamed/part_000)
plus the localStorage mirrors of the two persisted revisions
(`cards_revision`, `cards_server_revision`) and a counter of listener
notifications. -/
structure SyncStatus where
  hasUnsavedChanges : Bool
  isSyncing : Bool
  revisionLocal : ℚ
  revisionServer : ℚ
  lastSaved : Option ℤ := none
  lastModified : Option ℤ := none
  lastSyncAttempt : Option ℤ := none
  lastSyncError : Option String := none
  persistedLocal : Option ℚ := none
  persistedServer : Option ℚ := none
  notifications : Nat := 0
deriving DecidableEq, Repr

/-- `notifyListeners` (part_000 line 165): every listener is invoked with
the current status; modelled as a notification counter bump. -/
def notifyListeners (s : SyncStatus) : SyncStatus :=
  { s with notifications := s.notifications + 1 }

/-- `setLocalRevision` (part_000 lines 59-72): validate, store, recompute
`hasUnsavedChanges`, persist to `cards_revision`, notify. -/
def setLocalRevision (v : JSVal) (s : SyncStatus) : SyncStatus :=
  let r := coerceRevision v
  notifyListeners { s with
    revisionLocal := r,
    hasUnsavedChanges := decide (r > s.revisionServer),
    persistedLocal := some r }

/-- `setServerRevision` (part_000 lines 74-87). -/
def setServerRevision (v : JSVal) (s : SyncStatus) : SyncStatus :=
  let r := coerceRevision v
  notifyListeners { s with
    revisionServer := r,
    hasUnsavedChanges := decide (s.revisionLocal > r),
    persistedServer := some r }

/-- `incrementLocalRevision` (part_000 lines 89-95):
`setLocalRevision(revisionLocal + 1)` followed by stamping
`lastModified`. -/
def incrementLocalRevision (now : ℤ) (s : SyncStatus) : SyncStatus :=
  let s1 := setLocalRevision (JSVal.num (s.revisionLocal + 1)) s
  { s1 with lastModified := some now }

/-- `markAsSyncing` (part_000 lines 97-103). -/
def markAsSyncing (now : ℤ) (s : SyncStatus) : SyncStatus :=
  notifyListeners { s with
    isSyncing := true,
    lastSyncAttempt := some now,
    lastSyncError := none }

/-- `markAsSynced` (part_000 lines 105-117): optionally update the server
revision, then clear `isSyncing`, stamp `lastSaved`, clear the error and
recompute `hasUnsavedChanges`. -/
def markAsSynced (arg : Option JSVal) (now : ℤ) (s : SyncStatus) : SyncStatus :=
  let s1 := match arg with
    | some v => setServerRevision v s
    | none => s
  notifyListeners { s1 with
    isSyncing := false,
    lastSaved := some now,
    lastSyncError := none,
    hasUnsavedChanges := decide (s1.revisionLocal > s1.revisionServer) }

/-- `markSyncFailed` (part_000 lines 119-125): clear `isSyncing`, record
the error, keep everything else (in particular `hasUnsavedChanges`). -/
def markSyncFailed (err : Option String) (s : SyncStatus) : SyncStatus :=
  notifyListeners { s with isSyncing := false, lastSyncError := err }

/-- `markDataUpdatedFromServer` (part_000 lines 127-140): both revisions
become the server revision, `hasUnsavedChanges` is cleared, both
localStorage copies are rewritten, `lastSaved` stamped. -/
def markDataUpdatedFromServer (r : ℚ) (now : ℤ) (s : SyncStatus) : SyncStatus :=
  notifyListeners { s with
    revisionLocal := r,
    revisionServer := r,
    hasUnsavedChanges := false,
    lastSaved := some now,
    persistedLocal := some r,
    persistedServer := some r }

/-- `reset` (part_000 lines 176-190): replace the whole status record with
the zeroed default and remove both persisted copies. -/
def reset (s : SyncStatus) : SyncStatus :=
  notifyListeners {
    hasUnsavedChanges := false,
    isSyncing := false,
    revisionLocal := 0,
    revisionServer := 0,
    notifications := s.notifications }

/-- `needsCloudRead` (part_000 lines 193-195). -/
def needsCloudRead (s : SyncStatus) : Bool :=
  decide (s.revisionLocal ≤ s.revisionServer)

/-- `needsCloudWrite` (part_000 lines 198-200). -/
def needsCloudWrite (s : SyncStatus) : Bool :=
  decide (s.revisionLocal > s.revisionServer)

/-- The status right after the constructor ran `loadRevisions`
(part_000 lines 28-57): both counters hold the parsed persisted values
(`0` on any parse problem) and `hasUnsavedChanges` is computed from
them; the persisted mirrors hold whatever localStorage held. -/
def initState (lr sr : ℚ) (pl ps : Option ℚ) : SyncStatus :=
  { hasUnsavedChanges := decide (lr > sr),
    isSyncing := false,
    revisionLocal := lr,
    revisionServer := sr,
    persistedLocal := pl,
    persistedServer := ps }

/-- One public operation of `SyncStatusManager`, with its JS argument. -/
inductive SyncOp where
  | setLocal (v : JSVal)
  | setServer (v : JSVal)
  | increment (now : ℤ)
  | syncing (now : ℤ)
  | synced (arg : Option JSVal) (now : ℤ)
  | syncFailed (err : Option String)
  | updatedFromServer (r : ℚ) (now : ℤ)
  | resetOp

/-- Dispatch a public operation. -/
def applyOp : SyncOp → SyncStatus → SyncStatus
  | SyncOp.setLocal v, s => setLocalRevision v s
  | SyncOp.setServer v, s => setServerRevision v s
  | SyncOp.increment t, s => incrementLocalRevision t s
  | SyncOp.syncing t, s => markAsSyncing t s
  | SyncOp.synced a t, s => markAsSynced a t s
  | SyncOp.syncFailed e, s => markSyncFailed e s
  | SyncOp.updatedFromServer r t, s => markDataUpdatedFromServer r t s
  | SyncOp.resetOp, s => reset s

/-- States reachable from construction through the public interface. -/
inductive Reachable : SyncStatus → Prop where
  | init (lr sr : ℚ) (pl ps : Option ℚ) : Reachable (initState lr sr pl ps)
  | step {s : SyncStatus} (h : Reachable s) (op : SyncOp) :
      Reachable (applyOp op s)

/-- Claim C2: after every public operation of the revision tracker, for
every reachable state and every argument value,
`hasUnsavedChanges == (revisionLocal > revisionServer)`. -/
theorem c2_hasUnsavedChanges_invariant (s : SyncStatus) (h : Reachable s) :
    s.hasUnsavedChanges = decide (s.revisionLocal > s.revisionServer) := by
  induction h with
  | init lr sr pl ps => rfl
  | step h op ih =>
    cases op with
    | setLocal v =>
      simp [applyOp, setLocalRevision, notifyListeners]
    | setServer v =>
      simp [applyOp, setServerRevision, notifyListeners]
    | increment t =>
      simp [applyOp, incrementLocalRevision, setLocalRevision, notifyListeners]
    | syncing t =>
      simpa [applyOp, markAsSyncing, notifyListeners] using ih
    | synced a t =>
      cases a with
      | none => simp [applyOp, markAsSynced, notifyListeners]
      | some v => simp [applyOp, markAsSynced, setServerRevision, notifyListeners]
    | syncFailed e =>
      simpa [applyOp, markSyncFailed, notifyListeners] using ih
    | updatedFromServer r t =>
      simp [applyOp, markDataUpdatedFromServer, notifyListeners]
    | resetOp =>
      simp [applyOp, reset, notifyListeners]

/-- Witness for C2 at a concrete reachable state: start from persisted
revisions 2/1 and mark a sync failure; the invariant instantiates there. -/
theorem c2_hasUnsavedChanges_invariant_witness :
    (applyOp (SyncOp.syncFailed (some "boom")) (initState 2 1 none none)).hasUnsavedChanges
      = decide ((applyOp (SyncOp.syncFailed (some "boom")) (initState 2 1 none none)).revisionLocal
          > (applyOp (SyncOp.syncFailed (some "boom")) (initState 2 1 none none)).revisionServer) :=
  c2_hasUnsavedChanges_invariant _ (Reachable.step (Reachable.init 2 1 none none) _)

/-- Counterexample to claim C4 as stated: the setters do *not* coerce
negative or non-integer numbers to 0.  `setLocalRevision(-1)` stores the
negative value `-1` and `setServerRevision(1/2)` stores the non-integer
`1/2`, so the stored revision is not always a non-negative integer. -/
theorem c4_counterexample :
    (setLocalRevision (JSVal.num (-1)) (initState 0 0 none none)).revisionLocal = -1
    ∧ ((setLocalRevision (JSVal.num (-1)) (initState 0 0 none none)).revisionLocal < 0)
    ∧ (setServerRevision (JSVal.num (mkRat 1 2)) (initState 0 0 none none)).revisionServer = mkRat 1 2
    ∧ ((setServerRevision (JSVal.num (mkRat 1 2)) (initState 0 0 none none)).revisionServer).den = 2 := by
  refine ⟨rfl, by decide, rfl, by decide⟩

/-- Claim C4 as amended: the setters validate only that the argument is a
number and not `NaN`, coercing `NaN` and non-numbers to 0; every other
number - negative and non-integer values included - is stored unchanged.
They then persist the stored value, recompute `hasUnsavedChanges`, and
notify subscribers. -/
theorem c4_setters_validate_and_persist (s : SyncStatus) (v : JSVal) :
    (setLocalRevision v s).revisionLocal = coerceRevision v
    ∧ (setLocalRevision v s).hasUnsavedChanges
        = decide (coerceRevision v > s.revisionServer)
    ∧ (setLocalRevision v s).persistedLocal = some (coerceRevision v)
    ∧ (setLocalRevision v s).notifications = s.notifications + 1
    ∧ coerceRevision JSVal.nan = 0
    ∧ coerceRevision JSVal.other = 0
    ∧ (setServerRevision v s).revisionServer = coerceRevision v
    ∧ (setServerRevision v s).hasUnsavedChanges
        = decide (s.revisionLocal > coerceRevision v)
    ∧ (setServerRevision v s).persistedServer = some (coerceRevision v)
    ∧ (setServerRevision v s).notifications = s.notifications + 1 := by
  refine ⟨rfl, rfl, rfl, rfl, rfl, rfl, rfl, rfl, rfl, rfl⟩

/-- Claim C8: every `incrementLocalRevision` call increases
`revisionLocal` by exactly 1 (leaving `revisionServer` alone),
`hasUnsavedChanges` afterwards is exactly the test
`revisionLocal > revisionServer` on the new values, and a whole sequence
of calls raises `revisionLocal` by its length. -/
theorem c8_increment_by_one (s : SyncStatus) (t : ℤ) (ts : List ℤ) :
    (incrementLocalRevision t s).revisionLocal = s.revisionLocal + 1
    ∧ (incrementLocalRevision t s).revisionServer = s.revisionServer
    ∧ (incrementLocalRevision t s).hasUnsavedChanges
        = decide (s.revisionLocal + 1 > s.revisionServer)
    ∧ (ts.foldl (fun a u => incrementLocalRevision u a) s).revisionLocal
        = s.revisionLocal + ts.length := by
  refine ⟨rfl, rfl, rfl, ?_⟩
  induction ts generalizing s with
  | nil => simp
  | cons u rest ih =>
    have h2 := ih (incrementLocalRevision u s)
    simp only [List.foldl_cons, h2]
    have h3 : (incrementLocalRevision u s).revisionLocal = s.revisionLocal + 1 := rfl
    rw [h3]
    simp only [List.length_cons]
    push_cast
    ring

/-- Claim C9: `markSyncFailed` changes only `isSyncing` (to `false`) and
`lastSyncError`; `hasUnsavedChanges`, both revision counters, their
persisted copies and all timestamps are untouched. -/
theorem c9_markSyncFailed_frame (s : SyncStatus) (err : Option String) :
    (markSyncFailed err s).isSyncing = false
    ∧ (markSyncFailed err s).lastSyncError = err
    ∧ (markSyncFailed err s).hasUnsavedChanges = s.hasUnsavedChanges
    ∧ (markSyncFailed err s).revisionLocal = s.revisionLocal
    ∧ (markSyncFailed err s).revisionServer = s.revisionServer
    ∧ (markSyncFailed err s).lastSaved = s.lastSaved
    ∧ (markSyncFailed err s).lastModified = s.lastModified
    ∧ (markSyncFailed err s).lastSyncAttempt = s.lastSyncAttempt
    ∧ (markSyncFailed err s).persistedLocal = s.persistedLocal
    ∧ (markSyncFailed err s).persistedServer = s.persistedServer := by
  refine ⟨rfl, rfl, rfl, rfl, rfl, rfl, rfl, rfl, rfl, rfl⟩

/-
Chunk codec.  The source splits with the loop
`for (let i = 0; i < localData.length; i += MAX_CHUNK_SIZE)
    batches.push(localData.slice(i, i + MAX_CHUNK_SIZE));`
(telegram.ts lines 803-806 and 981-983) and joins with
`batches.join('')` (lines 729 and 976).  `chunksOfAux` carries a fuel
argument only to make the recursion structural; `chunksOf_eq_cons` shows
it satisfies exactly the slicing recurrence of the loop. -/
def chunksOfAux (n : Nat) : Nat → List Char → List (List Char)
  | _, [] => []
  | 0, _ :: _ => []
  | fuel + 1, c :: rest =>
    if n = 0 then []
    else (c :: rest).take n :: chunksOfAux n fuel ((c :: rest).drop n)

/-- Fixed-size slicing of a character list from offset 0, slice width
`n`: the split loop of `tryWriteToCloud` and of the migration. -/
def chunksOf (n : Nat) (l : List Char) : List (List Char) :=
  chunksOfAux n l.length l

theorem chunksOfAux_fuel (n : Nat) :
    ∀ f g (l : List Char), l.length ≤ f → l.length ≤ g →
      chunksOfAux n f l = chunksOfAux n g l := by
  intro f
  induction f with
  | zero =>
    intro g l hf _
    have : l = [] := List.length_eq_zero.mp (Nat.le_zero.mp hf)
    subst this
    cases g <;> rfl
  | succ f ih =>
    intro g l hf hg
    cases l with
    | nil => cases g <;> rfl
    | cons c rest =>
      cases g with
      | zero => exact absurd hg (by simp)
      | succ g =>
        show (if n = 0 then [] else _) = (if n = 0 then [] else _)
        by_cases hn : n = 0
        · simp [hn]
        · simp only [if_neg hn]
          have hlen : ((c :: rest).drop n).length ≤ f := by
            rw [List.length_drop]
            simp only [List.length_cons] at hf ⊢
            omega
          have hlen2 : ((c :: rest).drop n).length ≤ g := by
            rw [List.length_drop]
            simp only [List.length_cons] at hg ⊢
            omega
          rw [ih g ((c :: rest).drop n) hlen hlen2]

theorem chunksOf_nil (n : Nat) : chunksOf n [] = [] := rfl

/-- The slicing recurrence of the source loop: a non-empty payload yields
its first `n` characters followed by the split of the rest. -/
theorem chunksOf_eq_cons (n : Nat) (hn : n ≠ 0) (l : List Char) (hl : l ≠ []) :
    chunksOf n l = l.take n :: chunksOf n (l.drop n) := by
  cases l with
  | nil => exact absurd rfl hl
  | cons c rest =>
    show chunksOfAux n (rest.length + 1) (c :: rest) = _
    rw [show chunksOfAux n (rest.length + 1) (c :: rest)
        = if n = 0 then []
          else (c :: rest).take n :: chunksOfAux n rest.length ((c :: rest).drop n)
        from rfl]
    rw [if_neg hn]
    have hlen : ((c :: rest).drop n).length ≤ rest.length := by
      rw [List.length_drop]
      simp only [List.length_cons]
      omega
    rw [chunksOfAux_fuel n rest.length ((c :: rest).drop n).length
        ((c :: rest).drop n) hlen (Nat.le_refl _)]
    rfl

theorem chunksOf_eq_nil_iff (n : Nat) (hn : n ≠ 0) (l : List Char) :
    chunksOf n l = [] ↔ l = [] := by
  constructor
  · intro h
    by_contra hne
    rw [chunksOf_eq_cons n hn l hne] at h
    exact List.cons_ne_nil _ _ h
  · intro h; subst h; rfl

theorem chunksOf_flatten (n : Nat) (hn : n ≠ 0) :
    ∀ (l : List Char), (chunksOf n l).flatten = l := by
  have main : ∀ (k : Nat) (l : List Char), l.length ≤ k → (chunksOf n l).flatten = l := by
    intro k
    induction k with
    | zero =>
      intro l hl
      have : l = [] := List.length_eq_zero.mp (Nat.le_zero.mp hl)
      subst this; rfl
    | succ k ih =>
      intro l hl
      cases hcase : l with
      | nil => rfl
      | cons c rest =>
        subst hcase
        rw [chunksOf_eq_cons n hn _ (List.cons_ne_nil c rest)]
        have hlen : ((c :: rest).drop n).length ≤ k := by
          rw [List.length_drop]
          simp only [List.length_cons] at hl ⊢
          omega
        simp only [List.flatten_cons, ih _ hlen]
        exact List.take_append_drop n (c :: rest)
  exact fun l => main l.length l (Nat.le_refl _)

theorem chunksOf_length_le (n : Nat) (hn : n ≠ 0) :
    ∀ (l : List Char), ∀ c ∈ chunksOf n l, c.length ≤ n := by
  have main : ∀ (k : Nat) (l : List Char), l.length ≤ k →
      ∀ c ∈ chunksOf n l, c.length ≤ n := by
    intro k
    induction k with
    | zero =>
      intro l hl c hc
      have : l = [] := List.length_eq_zero.mp (Nat.le_zero.mp hl)
      subst this; simp [chunksOf_nil] at hc
    | succ k ih =>
      intro l hl c hc
      cases hcase : l with
      | nil => subst hcase; simp [chunksOf_nil] at hc
      | cons a rest =>
        subst hcase
        rw [chunksOf_eq_cons n hn _ (List.cons_ne_nil a rest)] at hc
        rcases List.mem_cons.mp hc with h | h
        · subst h
          exact List.length_take_le n (a :: rest)
        · have hlen : ((a :: rest).drop n).length ≤ k := by
            rw [List.length_drop]
            simp only [List.length_cons] at hl ⊢
            omega
          exact ih _ hlen c h
  exact fun l => main l.length l (Nat.le_refl _)

/-- Every chunk except possibly the last has length exactly `n`. -/
theorem chunksOf_full_chunks (n : Nat) (hn : n ≠ 0) :
    ∀ (l : List Char) (i : Nat), i + 1 < (chunksOf n l).length →
      ((chunksOf n l).getD i []).length = n := by
  have main : ∀ (k : Nat) (l : List Char), l.length ≤ k →
      ∀ (i : Nat), i + 1 < (chunksOf n l).length →
        ((chunksOf n l).getD i []).length = n := by
    intro k
    induction k with
    | zero =>
      intro l hl i h
      have : l = [] := List.length_eq_zero.mp (Nat.le_zero.mp hl)
      subst this; simp [chunksOf_nil] at h
    | succ k ih =>
      intro l hl i h
      cases hcase : l with
      | nil => subst hcase; simp [chunksOf_nil] at h
      | cons a rest =>
        subst hcase
        have hrec := chunksOf_eq_cons n hn (a :: rest) (List.cons_ne_nil a rest)
        cases i with
        | zero =>
          have htail : chunksOf n ((a :: rest).drop n) ≠ [] := by
            intro hemp
            rw [hrec, hemp] at h
            simp at h
          have hdrop : (a :: rest).drop n ≠ [] :=
            fun hd => htail (by rw [hd]; rfl)
          have hlt : n < (a :: rest).length := by
            by_contra hge
            exact hdrop (List.drop_eq_nil_of_le (Nat.le_of_not_lt hge))
          rw [hrec, List.getD_cons_zero, List.length_take]
          omega
        | succ j =>
          have hlen : ((a :: rest).drop n).length ≤ k := by
            rw [List.length_drop]
            simp only [List.length_cons] at hl ⊢
            omega
          have hlt : j + 1 < (chunksOf n ((a :: rest).drop n)).length := by
            rw [hrec] at h
            simp only [List.length_cons] at h
            omega
          rw [hrec, List.getD_cons_succ]
          exact ih ((a :: rest).drop n) hlen j hlt
  exact fun l => main l.length l (Nat.le_refl _)

/-- String-level split: the payload is a JS string; its characters are
sliced from offset 0 in windows of `n`. -/
def stringChunks (p : String) (n : Nat) : List String :=
  (chunksOf n p.data).map (fun cs => String.mk cs)

/-- `batches.join('')`: concatenation of the chunks in index order. -/
def joinStr : List String → String
  | [] => ""
  | b :: rest => b ++ joinStr rest

theorem joinStr_map_mk (css : List (List Char)) :
    joinStr (css.map (fun cs => String.mk cs)) = String.mk css.flatten := by
  induction css with
  | nil => rfl
  | cons cs rest ih =>
    show String.mk cs ++ joinStr (rest.map (fun c => String.mk c)) = _
    rw [ih]
    rfl

theorem getD_map_mk (css : List (List Char)) (i : Nat) :
    (css.map (fun cs => String.mk cs)).getD i ""
      = String.mk (css.getD i []) := by
  induction css generalizing i with
  | nil => cases i <;> rfl
  | cons a t ih =>
    cases i with
    | zero => rfl
    | succ j =>
      simp only [List.map_cons, List.getD_cons_succ]
      exact ih j

/-- Claim C3: for every payload `p` and slice width `n ≥ 1`, joining the
chunks produced by the fixed-size split reproduces `p` exactly; every
chunk has length at most `n`; every chunk except possibly the last has
length exactly `n`; the empty payload yields zero chunks. -/
theorem c3_split_join_round_trip (p : String) (n : Nat) (hn : 1 ≤ n) :
    joinStr (stringChunks p n) = p
    ∧ (∀ c ∈ stringChunks p n, c.length ≤ n)
    ∧ (∀ i : Nat, i + 1 < (stringChunks p n).length →
        ((stringChunks p n).getD i "").length = n)
    ∧ (p = "" → stringChunks p n = []) := by
  have hn0 : n ≠ 0 := Nat.one_le_iff_ne_zero.mp hn
  refine ⟨?_, ?_, ?_, ?_⟩
  · rw [stringChunks, joinStr_map_mk, chunksOf_flatten n hn0]
  · intro c hc
    rcases List.mem_map.mp hc with ⟨cs, hcs, hmk⟩
    have := chunksOf_length_le n hn0 p.data cs hcs
    rw [← hmk]
    exact this
  · intro i h
    have hlen : i + 1 < (chunksOf n p.data).length := by
      simpa [stringChunks] using h
    rw [stringChunks, getD_map_mk]
    exact chunksOf_full_chunks n hn0 p.data i hlen
  · intro hp
    subst hp
    rfl

/-- Witness for C3 at `p = "abcde"`, `n = 2`: chunks `"ab" "cd" "e"`. -/
theorem c3_split_join_round_trip_witness :
    joinStr (stringChunks "abcde" 2) = "abcde" :=
  (c3_split_join_round_trip "abcde" 2 (by decide)).1

/-
Remote store model.  Telegram CloudStorage maps string keys to string
values.  The metadata key holds a JSON object; chunk keys hold raw
chunk text.  A stored value is modelled structurally: `rmeta` is the
parsed shape of a JSON object value, `rstr` a raw (non-JSON) string;
`parseMeta` models `JSON.parse`, failing on a raw chunk string (the
source catches the resulting exception).
-/

/-- The JSON object fields the source ever probes on the metadata record:
`version`, `cardsBatches` (legacy), `revision`, `batches`.  A missing
field is `none` (JS `undefined`). -/
structure MetaObj where
  version : Option ℚ := none
  cardsBatches : Option ℚ := none
  revision : Option ℚ := none
  batches : Option ℚ := none
deriving DecidableEq, Repr

/-- A value stored under a remote key. -/
inductive RVal where
  | rstr (s : String)
  | rmeta (m : MetaObj)
deriving DecidableEq, Repr

/-- What `storage.getItem` hands back as a string.  A chunk read uses the
raw text; for a structured metadata value this is its JSON rendering
(never reached by the claims below, since chunk keys hold `rstr`). -/
def RVal.asString : RVal → String
  | RVal.rstr s => s
  | RVal.rmeta m =>
    "\x7bversion:" ++ toString (repr m.version)
      ++ ",revision:" ++ toString (repr m.revision)
      ++ ",batches:" ++ toString (repr m.batches) ++ "\x7d"

/-- `JSON.parse` of a stored value, as the source uses it on the metadata
key: yields the object for a JSON object value, throws (modelled `none`)
on raw chunk text. -/
def parseMeta : RVal → Option MetaObj
  | RVal.rmeta m => some m
  | RVal.rstr _ => none

/-- JS truthiness of an object field holding a number or `undefined`:
`undefined` and `0` are falsy. -/
def truthy : Option ℚ → Bool
  | none => false
  | some x => decide (x ≠ 0)

/-- Number of iterations of `for (let i = 0; i < b; i++)` when `b` is the
(possibly fractional, possibly `undefined`) batch-count field: zero when
`b` is `undefined` or not positive, `⌈b⌉` otherwise. -/
def iterCount : Option ℚ → Nat
  | none => 0
  | some q => if q.num ≤ 0 then 0 else ((q.num + q.den - 1) / (q.den : ℤ)).toNat

/-- The remote key-value store: an association list, most recent binding
first. -/
def Store := List (String × RVal)
deriving instance DecidableEq, Repr for Store

/-- `CloudStorage.getItem`. -/
def lookupK : Store → String → Option RVal
  | [], _ => none
  | p :: rest, k => if p.1 = k then some p.2 else lookupK rest k

/-- Binding removal (also `CloudStorage.removeItem`). -/
def removeK : Store → String → Store
  | [], _ => []
  | p :: rest, k => if p.1 = k then removeK rest k else p :: removeK rest k

/-- `CloudStorage.setItem`: overwrite the binding for a key. -/
def setK (st : Store) (k : String) (v : RVal) : Store :=
  (k, v) :: removeK st k

theorem lookupK_setK_self (st : Store) (k : String) (v : RVal) :
    lookupK (setK st k v) k = some v := by
  simp [setK, lookupK]

theorem lookupK_removeK_ne (st : Store) (k k' : String) (h : k ≠ k') :
    lookupK (removeK st k) k' = lookupK st k' := by
  induction st with
  | nil => rfl
  | cons p rest ih =>
    show lookupK (if p.1 = k then removeK rest k else p :: removeK rest k) k'
      = if p.1 = k' then some p.2 else lookupK rest k'
    by_cases hp : p.1 = k
    · rw [if_pos hp, ih]
      have hpk : ¬ p.1 = k' := fun he => h (hp ▸ he)
      rw [if_neg hpk]
    · rw [if_neg hp]
      show (if p.1 = k' then some p.2 else lookupK (removeK rest k) k') = _
      rw [ih]

theorem lookupK_setK_ne (st : Store) (k k' : String) (v : RVal) (h : k ≠ k') :
    lookupK (setK st k v) k' = lookupK st k' := by
  show (if k = k' then some v else lookupK (removeK st k) k') = lookupK st k'
  rw [if_neg h]
  exact lookupK_removeK_ne st k k' h

/-- A remote operation, recorded so that the theorems can speak about
which calls a code path issues. -/
inductive ROp where
  | rset (k : String) (v : RVal)
  | rget (k : String)
  | rremove (k : String)
deriving DecidableEq, Repr

/-- Whether an operation writes to the remote store. -/
def ROp.isWrite : ROp → Bool
  | ROp.rset _ _ => true
  | _ => false

/-- `STORAGE_KEY + '_meta'` (telegram.ts line 497: STORAGE_KEY = 'cards'). -/
def metaKey : String := "cards_meta"

/-- New-format chunk key stem `cards_batch_` (telegram.ts line 824). -/
def newChunkBase : String := "cards_batch_"

/-- Legacy chunk key stem `cards_cardsBatch` (telegram.ts line 702). -/
def oldChunkBase : String := "cards_cardsBatch"

/-- The chunk keys `base ++ i` for `i` in `[0, n)`. -/
def batchKeys (base : String) (n : Nat) : List String :=
  (List.range n).map (fun i => base ++ toString i)

/-- Sequential read of a list of keys, with the issued get operations;
aborts with `none` at the first missing key (telegram.ts lines 716-726). -/
def readKeysTr (st : Store) : List String → Option (List String) × List ROp
  | [] => (some [], [])
  | k :: rest =>
    match lookupK st k with
    | none => (none, [ROp.rget k])
    | some v =>
      match readKeysTr st rest with
      | (none, tr) => (none, ROp.rget k :: tr)
      | (some tl, tr) => (some (v.asString :: tl), ROp.rget k :: tr)

theorem readKeysTr_none_of_missing (st : Store) (ks : List String)
    (k : String) (hk : k ∈ ks) (hmiss : lookupK st k = none) :
    (readKeysTr st ks).1 = none := by
  induction ks with
  | nil => cases hk
  | cons a rest ih =>
    rcases List.mem_cons.mp hk with h | h
    · subst h
      simp [readKeysTr, hmiss]
    · show (match lookupK st a with
        | none => ((none : Option (List String)), [ROp.rget a])
        | some v =>
          match readKeysTr st rest with
          | (none, tr) => (none, ROp.rget a :: tr)
          | (some tl, tr) => (some (v.asString :: tl), ROp.rget a :: tr)).1 = none
      cases hv : lookupK st a with
      | none => rfl
      | some v =>
        have hrest := ih h
        cases hr : readKeysTr st rest with
        | mk o tr =>
          cases o with
          | none => rfl
          | some tl => rw [hr] at hrest; cases hrest

/-- Sequential write of chunk contents under `base ++ index`, starting at
`start`, with the issued set operations (telegram.ts lines 823-832). -/
def writeChunksTr (st : Store) (base : String) : List String → Nat → Store × List ROp
  | [], _ => (st, [])
  | b :: rest, start =>
    let k := base ++ toString start
    let pr := writeChunksTr (setK st k (RVal.rstr b)) base rest (start + 1)
    (pr.1, ROp.rset k (RVal.rstr b) :: pr.2)

/-- Removal of a list of keys with the issued remove operations. -/
def removeKeysTr (st : Store) : List String → Store × List ROp
  | [] => (st, [])
  | k :: rest =>
    let pr := removeKeysTr (removeK st k) rest
    (pr.1, ROp.rremove k :: pr.2)

/-- `cleanupExtraBatches` (telegram.ts lines 851-869): remove the 10 keys
`cards_batch_n .. cards_batch_(n+9)` (removal of an absent key succeeds,
so the early `break` is never taken on the modelled success path). -/
def cleanupTr (st : Store) (n : Nat) : Store × List ROp :=
  removeKeysTr st ((List.range 10).map (fun j => newChunkBase ++ toString (n + j)))

/-- The module-level state the sync engine touches: the tracker status,
the `cards_data` localStorage item, the remote store, and the
module-level `lastSyncAttempt` throttle timestamp (telegram.ts line
515). -/
structure World where
  sync : SyncStatus
  cardsData : Option String
  remote : Store
  lastSync : ℤ
deriving DecidableEq, Repr

/-- Result of `tryReadFromCloud`: the returned payload (or null), the
state afterwards, and the remote operations issued. -/
structure ReadRes where
  res : Option String
  world : World
  trace : List ROp
deriving DecidableEq, Repr

/-- Result of `tryWriteToCloud`. -/
structure WriteRes where
  ok : Bool
  world : World
  trace : List ROp
deriving DecidableEq, Repr

/-- The legacy-format test `parsedMeta.cardsBatches && !parsedMeta.revision`
(telegram.ts line 695). -/
def legacyStyle (pm : MetaObj) : Bool :=
  truthy pm.cardsBatches && !(truthy pm.revision)

/-- The batch count the metadata claims, as the read loop bound uses it
(legacy `cardsBatches`, new-format `batches`). -/
def claimedCount (pm : MetaObj) : Nat :=
  if legacyStyle pm then iterCount pm.cardsBatches else iterCount pm.batches

/-- The chunk key stem selected for the metadata shape
(telegram.ts lines 702 and 706). -/
def chunkBase (pm : MetaObj) : String :=
  if legacyStyle pm then oldChunkBase else newChunkBase

/-- The revision the selected metadata carries: the legacy shape is read
as revision 1 (telegram.ts line 699), the new shape as its `revision`
field. -/
def metaRevisionVal (pm : MetaObj) : ℚ :=
  if legacyStyle pm then 1 else pm.revision.getD 0

/-- `tryReadFromCloud` (telegram.ts lines 677-742): read the metadata,
pick the format, read batches `0..batches-1` aborting on a missing one,
then overwrite the local cache and call
`markDataUpdatedFromServer(meta.revision)`. -/
def tryReadFromCloud (now : ℤ) (w : World) : ReadRes :=
  match lookupK w.remote metaKey with
  | none => ⟨none, w, [ROp.rget metaKey]⟩
  | some mv =>
    match parseMeta mv with
    | none => ⟨none, w, [ROp.rget metaKey]⟩
    | some pm =>
      if legacyStyle pm || pm.revision.isSome then
        let pr := readKeysTr w.remote (batchKeys (chunkBase pm) (claimedCount pm))
        match pr.1 with
        | none => ⟨none, w, ROp.rget metaKey :: pr.2⟩
        | some bs =>
          let full := joinStr bs
          ⟨some full,
           { w with
             cardsData := some full,
             sync := markDataUpdatedFromServer (metaRevisionVal pm) now w.sync },
           ROp.rget metaKey :: pr.2⟩
      else ⟨none, w, [ROp.rget metaKey]⟩

/-- The field access `meta.revision` handed to `setServerRevision` in
step 2 of `tryWriteToCloud`: `undefined` when the parsed object has no
`revision` field. -/
def jsOfField : Option ℚ → JSVal
  | some x => JSVal.num x
  | none => JSVal.other

/-- Step 2 of `tryWriteToCloud` (telegram.ts lines 769-779): re-read the
metadata; on a parsed object call `setServerRevision(meta.revision)`;
on a missing or unparsable value leave the tracker untouched (the catch
only logs). -/
def refreshServerRevision (st : Store) (s : SyncStatus) : SyncStatus :=
  match lookupK st metaKey with
  | none => s
  | some mv =>
    match parseMeta mv with
    | none => s
    | some pm => setServerRevision (jsOfField pm.revision) s

/-- `tryWriteToCloud` (telegram.ts lines 745-848): throttle, mark
syncing, short-circuit when no write is needed, refresh the server
revision, resolve a conflict by reading, otherwise chunk the local
payload and write metadata first, then the chunks, then clean up stale
trailing chunks, and mark synced. -/
def tryWriteToCloud (now : ℤ) (w : World) : WriteRes :=
  if now - w.lastSync < 5000 then ⟨false, w, []⟩
  else
    let w1 : World := { w with lastSync := now }
    let s1 := markAsSyncing now w1.sync
    if needsCloudWrite s1 then
      let s2 := refreshServerRevision w1.remote s1
      if s2.revisionServer > s2.revisionLocal then
        let s3 := markSyncFailed (some "Server has newer data") s2
        let rr := tryReadFromCloud now { w1 with sync := s3 }
        ⟨rr.res.isSome, rr.world, ROp.rget metaKey :: rr.trace⟩
      else
        match w1.cardsData with
        | none =>
          ⟨false, { w1 with sync := markSyncFailed (some "No local data") s2 },
           [ROp.rget metaKey]⟩
        | some d =>
          if d = "" then
            ⟨false, { w1 with sync := markSyncFailed (some "No local data") s2 },
             [ROp.rget metaKey]⟩
          else
            let bs := stringChunks d 2000
            let nm : MetaObj :=
              { version := some 1, revision := some s2.revisionLocal,
                batches := some (bs.length : ℚ) }
            let st1 := setK w1.remote metaKey (RVal.rmeta nm)
            let pw := writeChunksTr st1 newChunkBase bs 0
            let pc := cleanupTr pw.1 bs.length
            ⟨true,
             { w1 with
               remote := pc.1,
               sync := markAsSynced (some (JSVal.num s2.revisionLocal)) now s2 },
             ROp.rget metaKey :: ROp.rset metaKey (RVal.rmeta nm) :: (pw.2 ++ pc.2)⟩
    else ⟨true, { w1 with sync := markAsSynced none now s1 }, []⟩

/-- `migrateOldDataToNewFormat` (telegram.ts lines 940-1023): on a
legacy-shaped metadata record, read every legacy chunk (abort on a
missing one), reassemble, rewrite metadata with `revision = 1` and the
new-format chunks, delete the legacy chunk keys, and set the tracker's
server revision to 1. -/
def migrateOldDataToNewFormat (w : World) : Bool × World :=
  match lookupK w.remote metaKey with
  | none => (false, w)
  | some mv =>
    match parseMeta mv with
    | none => (false, w)
    | some pm =>
      if !(truthy pm.cardsBatches) || pm.revision.isSome then (false, w)
      else
        let oldKs := batchKeys oldChunkBase (iterCount pm.cardsBatches)
        match (readKeysTr w.remote oldKs).1 with
        | none => (false, w)
        | some bs =>
          let full := joinStr bs
          let nbs := stringChunks full 2000
          let nm : MetaObj :=
            { version := some 1, revision := some 1,
              batches := some (nbs.length : ℚ) }
          let st1 := setK w.remote metaKey (RVal.rmeta nm)
          let st2 := (writeChunksTr st1 newChunkBase nbs 0).1
          let st3 := (removeKeysTr st2 oldKs).1
          (true, { w with
            remote := st3,
            sync := setServerRevision (JSVal.num 1) w.sync })

/-- Claim C5: a `tryWriteToCloud` call issued strictly less than 5000 ms
after the recorded previous attempt timestamp returns `false` at once,
issues no remote operation, and leaves the whole state (revisions
included) unchanged. -/
theorem c5_throttle_skips (now : ℤ) (w : World) (h : now - w.lastSync < 5000) :
    tryWriteToCloud now w = ⟨false, w, []⟩ := by
  unfold tryWriteToCloud
  rw [if_pos h]

/-- A state 100 ms after a previous attempt at time 0. -/
def wC5 : World :=
  { sync := initState 1 0 none none,
    cardsData := some "x",
    remote := [],
    lastSync := 0 }

/-- Witness for C5: the call at time 100 after an attempt at time 0 is
skipped. -/
theorem c5_throttle_skips_witness :
    tryWriteToCloud 100 wC5 = ⟨false, wC5, []⟩ :=
  c5_throttle_skips 100 wC5 (by decide)

/-- Entry state for C1: `revisionLocal = 3 < revisionServer = 5`, cached
payload `LOCAL`, remote payload `REMOTE` at revision 5, throttle long
expired. -/
def wC1 : World :=
  { sync := { hasUnsavedChanges := false, isSyncing := false,
              revisionLocal := 3, revisionServer := 5 },
    cardsData := some "LOCAL",
    remote := [(metaKey, RVal.rmeta { version := some 1, revision := some 5, batches := some 1 }),
               ("cards_batch_0", RVal.rstr "REMOTE")],
    lastSync := 0 }

/-- Counterexample to claim C1 as stated: with `revisionServer(5) >
revisionLocal(3)` at entry and the throttle passed, the call succeeds
(returns `true`) but does NOT go through a read path - it issues no
remote operation at all, and the local cached payload stays `LOCAL`
instead of being replaced by the remote payload `REMOTE`. -/
theorem c1_counterexample :
    wC1.sync.revisionServer > wC1.sync.revisionLocal
    ∧ (tryWriteToCloud 6000 wC1).ok = true
    ∧ lookupK wC1.remote "cards_batch_0" = some (RVal.rstr "REMOTE")
    ∧ (tryWriteToCloud 6000 wC1).world.cardsData = some "LOCAL"
    ∧ decide ((tryWriteToCloud 6000 wC1).world.cardsData = some "REMOTE") = false
    ∧ (tryWriteToCloud 6000 wC1).trace = [] := by
  refine ⟨by decide, rfl, rfl, rfl, by decide, rfl⟩

/-- Claim C1 as amended: when `revisionServer > revisionLocal` at entry
and the call is not throttled, `tryWriteToCloud` short-circuits without
writing and without reading - `needsCloudWrite()` is false, so it just
marks the state synced and returns `true`, issuing no remote operation,
leaving the cached payload, the remote store and both revision counters
unchanged, and ending with `hasUnsavedChanges == false`. -/
theorem c1_amended_short_circuit (now : ℤ) (w : World)
    (hth : ¬ now - w.lastSync < 5000)
    (hgt : w.sync.revisionServer > w.sync.revisionLocal) :
    tryWriteToCloud now w
      = { ok := true,
          world := { w with
                     lastSync := now,
                     sync := markAsSynced none now (markAsSyncing now w.sync) },
          trace := [] }
    ∧ (tryWriteToCloud now w).world.cardsData = w.cardsData
    ∧ (tryWriteToCloud now w).world.remote = w.remote
    ∧ (tryWriteToCloud now w).world.sync.revisionLocal = w.sync.revisionLocal
    ∧ (tryWriteToCloud now w).world.sync.revisionServer = w.sync.revisionServer
    ∧ (tryWriteToCloud now w).world.sync.hasUnsavedChanges = false := by
  have hw : needsCloudWrite (markAsSyncing now w.sync) = false :=
    decide_eq_false (lt_asymm hgt)
  have hmain : tryWriteToCloud now w
      = { ok := true,
          world := { w with
                     lastSync := now,
                     sync := markAsSynced none now (markAsSyncing now w.sync) },
          trace := [] } := by
    unfold tryWriteToCloud
    rw [if_neg hth]
    simp only [hw, Bool.false_eq_true, if_false]
  refine ⟨hmain, ?_, ?_, ?_, ?_, ?_⟩
  · rw [hmain]
  · rw [hmain]
  · rw [hmain]; rfl
  · rw [hmain]; rfl
  · rw [hmain]
    exact decide_eq_false (lt_asymm hgt)

/-- Witness for the amended C1 at the concrete entry state `wC1`. -/
theorem c1_amended_short_circuit_witness :
    tryWriteToCloud 6000 wC1
      = { ok := true,
          world := { wC1 with
                     lastSync := 6000,
                     sync := markAsSynced none 6000 (markAsSyncing 6000 wC1.sync) },
          trace := [] } :=
  (c1_amended_short_circuit 6000 wC1 (by decide) (by decide)).1

/-- Claim C6: whenever the stored metadata selects a readable shape that
claims `k` batches and some batch index in `[0, k)` has no stored chunk,
`tryReadFromCloud` returns null and the state - cached payload and both
revision counters included - is completely unchanged. -/
theorem c6_missing_chunk_returns_absent (now : ℤ) (w : World) (pm : MetaObj)
    (hmeta : lookupK w.remote metaKey = some (RVal.rmeta pm))
    (hvalid : (legacyStyle pm || pm.revision.isSome) = true)
    (i : Nat) (hi : i < claimedCount pm)
    (hmiss : lookupK w.remote (chunkBase pm ++ toString i) = none) :
    (tryReadFromCloud now w).res = none
    ∧ (tryReadFromCloud now w).world = w := by
  have hmem : (chunkBase pm ++ toString i)
      ∈ batchKeys (chunkBase pm) (claimedCount pm) :=
    List.mem_map.mpr ⟨i, List.mem_range.mpr hi, rfl⟩
  have hnone :
      (readKeysTr w.remote (batchKeys (chunkBase pm) (claimedCount pm))).1 = none :=
    readKeysTr_none_of_missing _ _ _ hmem hmiss
  unfold tryReadFromCloud
  rw [hmeta]
  simp only [parseMeta, hvalid, if_true, hnone]
  exact ⟨trivial, trivial⟩

/-- Remote state for the C6 witness: new-format metadata claiming three
batches while only chunks 0 and 1 are stored. -/
def wC6 : World :=
  { sync := initState 1 1 none none,
    cardsData := some "X",
    remote := [(metaKey, RVal.rmeta { revision := some 2, batches := some 3 }),
               ("cards_batch_0", RVal.rstr "aa"),
               ("cards_batch_1", RVal.rstr "bb")],
    lastSync := 0 }

/-- Witness for C6: reading `wC6` (missing chunk 2 of 3) returns null and
leaves everything untouched. -/
theorem c6_missing_chunk_returns_absent_witness :
    (tryReadFromCloud 0 wC6).res = none ∧ (tryReadFromCloud 0 wC6).world = wC6 :=
  c6_missing_chunk_returns_absent 0 wC6
    { revision := some 2, batches := some 3 }
    rfl (by decide) 2 (by decide) rfl

/-- Entry state for the C10 counterexample: empty cached payload, a
pending local revision (1 > 0), but a remote metadata record whose
revision (5) is ahead of the local one. -/
def wC10x : World :=
  { sync := initState 1 0 none none,
    cardsData := some "",
    remote := [(metaKey, RVal.rmeta { version := some 1, revision := some 5, batches := some 1 }),
               ("cards_batch_0", RVal.rstr "R")],
    lastSync := 0 }

/-- Counterexample to claim C10 as stated: with the cached payload empty,
a cloud write needed and the throttle passed, `tryWriteToCloud` need not
fail with `No local data` - when the metadata re-read reveals a newer
server revision it takes the conflict path first, returns `true`, and
records `Server has newer data` instead. -/
theorem c10_counterexample :
    needsCloudWrite wC10x.sync = true
    ∧ wC10x.cardsData = some ""
    ∧ decide ((9999 : ℤ) - wC10x.lastSync < 5000) = false
    ∧ (tryWriteToCloud 9999 wC10x).ok = true
    ∧ (tryWriteToCloud 9999 wC10x).world.sync.lastSyncError
        = some "Server has newer data"
    ∧ (tryWriteToCloud 9999 wC10x).world.cardsData = some "R" := by
  refine ⟨rfl, rfl, by decide, ?_, ?_, ?_⟩ <;> decide

/-- Claim C10 as amended: when the cached payload is the empty string (or
missing), a cloud write is needed, the call is not throttled, and the
metadata re-read does not reveal a server revision ahead of the local
one, `tryWriteToCloud` treats the empty payload exactly like a missing
one: it calls `markSyncFailed('No local data')` and returns `false`,
with the metadata read as its only remote operation - so an empty
payload is never uploaded. -/
theorem c10_amended_empty_payload (now : ℤ) (w : World)
    (hth : ¬ now - w.lastSync < 5000)
    (hdata : w.cardsData = some "" ∨ w.cardsData = none)
    (hneed : needsCloudWrite w.sync = true)
    (hnoconf : ¬ (refreshServerRevision w.remote (markAsSyncing now w.sync)).revisionServer
        > (refreshServerRevision w.remote (markAsSyncing now w.sync)).revisionLocal) :
    tryWriteToCloud now w
      = { ok := false,
          world := { w with
                     lastSync := now,
                     sync := markSyncFailed (some "No local data")
                       (refreshServerRevision w.remote (markAsSyncing now w.sync)) },
          trace := [ROp.rget metaKey] } := by
  have hw : needsCloudWrite (markAsSyncing now w.sync) = true := hneed
  unfold tryWriteToCloud
  rw [if_neg hth]
  simp only [hw, if_true]
  rw [if_neg hnoconf]
  rcases hdata with h | h
  · rw [h]; rfl
  · rw [h]

/-- Entry state for the C10 witness: empty cached payload, pending local
revision, empty remote store. -/
def wC10 : World :=
  { sync := initState 1 0 none none,
    cardsData := some "",
    remote := [],
    lastSync := 0 }

/-- Witness for the amended C10 at the concrete state `wC10`. -/
theorem c10_amended_empty_payload_witness :
    tryWriteToCloud 9999 wC10
      = { ok := false,
          world := { wC10 with
                     lastSync := 9999,
                     sync := markSyncFailed (some "No local data")
                       (refreshServerRevision wC10.remote (markAsSyncing 9999 wC10.sync)) },
          trace := [ROp.rget metaKey] } :=
  c10_amended_empty_payload 9999 wC10 (by decide) (Or.inl rfl) (by decide) (by decide)

theorem append_ne_of_longer (a t b : String) (h : b.length < a.length) :
    a ++ t ≠ b := by
  intro he
  have hl : (a ++ t).length = b.length := by rw [he]
  rw [String.length_append] at hl
  omega

theorem lookupK_removeK_self (st : Store) (k : String) :
    lookupK (removeK st k) k = none := by
  induction st with
  | nil => rfl
  | cons p rest ih =>
    show lookupK (if p.1 = k then removeK rest k else p :: removeK rest k) k = none
    by_cases hp : p.1 = k
    · rw [if_pos hp]; exact ih
    · rw [if_neg hp]
      show (if p.1 = k then some p.2 else lookupK (removeK rest k) k) = none
      rw [if_neg hp]; exact ih

theorem lookupK_writeChunksTr_ne (base : String) (bs : List String) :
    ∀ (st : Store) (start : Nat) (k : String),
      (∀ i : Nat, base ++ toString i ≠ k) →
      lookupK (writeChunksTr st base bs start).1 k = lookupK st k := by
  induction bs with
  | nil => intro st start k _; rfl
  | cons b rest ih =>
    intro st start k h
    show lookupK (writeChunksTr (setK st (base ++ toString start) (RVal.rstr b))
        base rest (start + 1)).1 k = _
    rw [ih _ _ _ h, lookupK_setK_ne _ _ _ _ (h start)]

theorem lookupK_removeKeysTr_ne (ks : List String) :
    ∀ (st : Store) (k : String), (∀ k' ∈ ks, k' ≠ k) →
      lookupK (removeKeysTr st ks).1 k = lookupK st k := by
  induction ks with
  | nil => intro st k _; rfl
  | cons a rest ih =>
    intro st k h
    show lookupK (removeKeysTr (removeK st a) rest).1 k = _
    rw [ih _ _ (fun x hx => h x (List.mem_cons_of_mem a hx)),
        lookupK_removeK_ne _ _ _ (h a (List.mem_cons_self a rest))]

theorem lookupK_removeKeysTr_self (ks : List String) :
    ∀ (st : Store) (k : String), k ∈ ks →
      lookupK (removeKeysTr st ks).1 k = none := by
  induction ks with
  | nil => intro st k h; cases h
  | cons a rest ih =>
    intro st k h
    show lookupK (removeKeysTr (removeK st a) rest).1 k = none
    by_cases hk : k ∈ rest
    · exact ih _ _ hk
    · have hka : k = a := by
        rcases List.mem_cons.mp h with h1 | h2
        · exact h1
        · exact absurd h2 hk
      subst hka
      have hne : ∀ x ∈ rest, x ≠ k := by
        intro x hx he
        subst he
        exact hk hx
      rw [lookupK_removeKeysTr_ne rest _ _ hne]
      exact lookupK_removeK_self st k

/-- Every run of the migration either changes nothing and reports
`false`, or reports `true` and leaves new-format metadata with
`revision = 1`, the tracker's server revision at 1, and every legacy
chunk key that the pre-migration metadata claimed removed. -/
theorem migrate_result (w : World) :
    migrateOldDataToNewFormat w = (false, w)
    ∨ ((migrateOldDataToNewFormat w).1 = true
       ∧ (migrateOldDataToNewFormat w).2.sync.revisionServer = 1
       ∧ (∃ n : ℚ, lookupK (migrateOldDataToNewFormat w).2.remote metaKey
           = some (RVal.rmeta { version := some 1, revision := some 1, batches := some n }))
       ∧ (∀ pm : MetaObj, lookupK w.remote metaKey = some (RVal.rmeta pm) →
           ∀ i : Nat, i < iterCount pm.cardsBatches →
             lookupK (migrateOldDataToNewFormat w).2.remote
               (oldChunkBase ++ toString i) = none)) := by
  simp only [migrateOldDataToNewFormat]
  split
  · exact Or.inl rfl
  · rename_i mv hm
    split
    · exact Or.inl rfl
    · rename_i pm hp
      split
      · exact Or.inl rfl
      · rename_i hc
        split
        · exact Or.inl rfl
        · rename_i bs hr
          have hnew : ∀ i : Nat, newChunkBase ++ toString i ≠ metaKey :=
            fun i => append_ne_of_longer _ _ _ (by decide)
          have hold : ∀ k' ∈ batchKeys oldChunkBase (iterCount pm.cardsBatches),
              k' ≠ metaKey := by
            intro k' hk'
            rcases List.mem_map.mp hk' with ⟨i, _, hi⟩
            rw [← hi]
            exact append_ne_of_longer _ _ _ (by decide)
          refine Or.inr ⟨rfl, rfl, ⟨((stringChunks (joinStr bs) 2000).length : ℚ), ?_⟩, ?_⟩
          · show lookupK (removeKeysTr (writeChunksTr
                (setK w.remote metaKey _) newChunkBase _ 0).1 _).1 metaKey = _
            rw [lookupK_removeKeysTr_ne _ _ _ hold,
                lookupK_writeChunksTr_ne _ _ _ _ _ hnew,
                lookupK_setK_self]
          · intro pm' hpm' i hi
            have hmv : mv = RVal.rmeta pm' := by
              rw [hm] at hpm'
              exact Option.some.inj hpm'
            have hpp : pm' = pm := by
              rw [hmv] at hp
              exact Option.some.inj hp
            subst hpp
            show lookupK (removeKeysTr _ (batchKeys oldChunkBase
                (iterCount pm'.cardsBatches))).1 (oldChunkBase ++ toString i) = none
            exact lookupK_removeKeysTr_self _ _ _
              (List.mem_map.mpr ⟨i, List.mem_range.mpr hi, rfl⟩)

/-- A second migration run on an already-migrated store (new-format
metadata with a `revision` field) detects the field and is a no-op. -/
theorem migrate_noop_of_new_meta (w : World) (n : ℚ)
    (h : lookupK w.remote metaKey
      = some (RVal.rmeta { version := some 1, revision := some 1, batches := some n })) :
    migrateOldDataToNewFormat w = (false, w) := by
  unfold migrateOldDataToNewFormat
  rw [h]
  rfl

/-- Claim C7: migration is idempotent - running it twice yields exactly
the same final state as running it once; and when the first run
migrated (returned `true`), the second run finds the `revision` field
already present and is a no-op (returns `false`), the final metadata
carries `revision = 1`, the tracker's `revisionServer` is 1, and the
legacy chunk keys are gone. -/
theorem c7_migration_idempotent (w : World) :
    (migrateOldDataToNewFormat (migrateOldDataToNewFormat w).2).2
      = (migrateOldDataToNewFormat w).2
    ∧ ((migrateOldDataToNewFormat w).1 = true →
        (migrateOldDataToNewFormat (migrateOldDataToNewFormat w).2).1 = false
        ∧ (migrateOldDataToNewFormat w).2.sync.revisionServer = 1
        ∧ (∃ n : ℚ, lookupK (migrateOldDataToNewFormat w).2.remote metaKey
            = some (RVal.rmeta { version := some 1, revision := some 1, batches := some n }))
        ∧ (∀ pm : MetaObj, lookupK w.remote metaKey = some (RVal.rmeta pm) →
            ∀ i : Nat, i < iterCount pm.cardsBatches →
              lookupK (migrateOldDataToNewFormat w).2.remote
                (oldChunkBase ++ toString i) = none)) := by
  rcases migrate_result w with heq | ⟨h1, hrev, ⟨n, hmeta⟩, hgone⟩
  · constructor
    · simp [heq]
    · intro hcontra
      rw [heq] at hcontra
      cases hcontra
  · have hnoop := migrate_noop_of_new_meta _ n hmeta
    constructor
    · rw [hnoop]
    · intro _
      exact ⟨by rw [hnoop], hrev, ⟨n, hmeta⟩, hgone⟩

/-- A legacy remote state for the C7 witness: metadata `cardsBatches: 2`
with both legacy chunks present. -/
def wC7 : World :=
  { sync := initState 0 0 none none,
    cardsData := none,
    remote := [(metaKey, RVal.rmeta { cardsBatches := some 2 }),
               ("cards_cardsBatch0", RVal.rstr "ab"),
               ("cards_cardsBatch1", RVal.rstr "cd")],
    lastSync := 0 }

/-- Witness for C7 at the legacy state `wC7`: the first run migrates, the
second run is a no-op and the state is unchanged by it. -/
theorem c7_migration_idempotent_witness :
    (migrateOldDataToNewFormat (migrateOldDataToNewFormat wC7).2).2
      = (migrateOldDataToNewFormat wC7).2
    ∧ (migrateOldDataToNewFormat (migrateOldDataToNewFormat wC7).2).1 = false :=
  ⟨(c7_migration_idempotent wC7).1,
   ((c7_migration_idempotent wC7).2 (by decide)).1⟩

end TgSync
